import Mathlib

/-!
Verification of the Unity asset ripper (`unity_ripper.py`): a shallow
embedding of its core functions — name sanitization, Unity version
sniffing and compatibility classification, candidate-file discovery,
the per-object extraction pass, and the batch statistics fold — together
with theorems settling the specification claims about them.
-/

namespace UnityRipper

/-! ## NameSanitizer (`sanitize_name`, source lines 41-43) -/

/-- The fixed allow-list string `keep` from the source, character for
character (ASCII letters, digits, space, `-_.()`, an extended-alphabet
block, and a second digit run). -/
def keep : String := "-_.() abcdefghijklmnopqrstuvwxyzABCDEFGHIJKLMNOPQRSTUVWXYZ0123456789–∞–±–≤–≥–¥–µ—ë–∂–∑–∏–π–∫–ª–º–Ω–æ–ø—Ä—Å—Ç—É—Ñ—Ö—Ü—á—à—â—ä—ã—å—ç—é—è–ê–ë–í–ì–î–ï–Å–ñ–ó–ò–ô–ö–õ–ú–ù–û–ü–†–°–¢–£–§–•–¶–ß–®–©–™–´–¨–≠–Æ–Ø0123456789"

/-- `sanitize_name(name)`: `"".join(c if c in keep else "_" for c in (name or "unnamed"))`.
A `none` argument models Python `None`; `name or "unnamed"` makes both `None`
and the empty string fall back to `"unnamed"`. -/
def sanitize_name (name : Option String) : String :=
  let base : String :=
    match name with
    | none => "unnamed"
    | some s => if s = "" then "unnamed" else s
  ⟨base.data.map (fun c => if c ∈ keep.data then c else '_')⟩

/-! ## Decimal rendering of object ids (Python `str` on `int`) -/

/-- Decimal digit characters of a natural number, most significant first
(`str(n)` for a non-negative Python int). -/
def natDec (n : Nat) : List Char :=
  if _h : n < 10 then [Nat.digitChar n]
  else natDec (n / 10) ++ [Nat.digitChar (n % 10)]
  decreasing_by exact Nat.div_lt_self (by omega) (by omega)

/-- `str(i)` for a Python int: decimal digits, `'-'`-prefixed when negative. -/
def intDec (i : Int) : List Char :=
  if i < 0 then '-' :: natDec i.natAbs else natDec i.natAbs

/-- String form of `str(i)`, used when the source interpolates `path_id`
into an output file name. -/
def intDecStr (i : Int) : String := ⟨intDec i⟩

/-- Numeric value of a decimal digit string (how Python `int()` reads the
digit groups captured by `(\d+)`). -/
def decVal (l : List Char) : Nat :=
  l.foldl (fun a c => a * 10 + (c.toNat - 48)) 0

/-! ## CompatibilityPolicy (`check_version_compatibility`, lines 86-105) -/

/-- `re.match(r'(\d+)\.(\d+)', version_str)`: a leading maximal digit run,
a literal dot, a second digit run; both runs converted with `int`. -/
def parseMajorMinor (s : String) : Option (Nat × Nat) :=
  let d1 := s.data.takeWhile Char.isDigit
  if d1.isEmpty then none
  else
    match s.data.drop d1.length with
    | '.' :: r2 =>
      let d2 := r2.takeWhile Char.isDigit
      if d2.isEmpty then none else some (decVal d1, decVal d2)
    | _ => none

/-- `check_version_compatibility(version_str)`: the rule chain over the
parsed leading major/minor, falling through to the inconclusive result. -/
def check_version_compatibility (version_str : String) : Bool × String :=
  match parseMajorMinor version_str with
  | some (major, minor) =>
    if major < 3 || (major == 3 && minor < 4) then
      (false, "Unity version too old (< 3.4)")
    else if major > 2023 then
      (true, "Newer version - may have limited support")
    else
      (true, "Fully supported")
  | none => (true, "Version check inconclusive")

/-! ## FileDiscovery (`find_input_files`, lines 107-132)

The filesystem is modelled by the two listings the function consumes: the
recursive enumeration (`root.rglob("*")`, files only) and the immediate
listing (`root.iterdir()`, files only), each as a list of file names. -/

/-- ASCII lowering of one character (`str.lower()` restricted to the ASCII
range, which is all the fixed extension/substring sets use). -/
def asciiLowerChar (c : Char) : Char :=
  if 'A' ≤ c ∧ c ≤ 'Z' then Char.ofNat (c.toNat + 32) else c

/-- `name.lower()` over ASCII characters. -/
def asciiLower (s : String) : String := ⟨s.data.map asciiLowerChar⟩

/-- Is `pat` a contiguous substring of `l` (Python `pat in name`)? -/
def containsSub : List Char → List Char → Bool
  | [], pat => List.isPrefixOf pat []
  | c :: t, pat => List.isPrefixOf pat (c :: t) || containsSub t pat

/-- `pathlib`'s `Path(name).suffix`: the final-component extension, present
only when the last dot sits strictly inside the name (`0 < i < len - 1`). -/
def pySuffix (name : String) : String :=
  match (name.data.reverse.findIdx? (· = '.')).map
      (fun k => name.data.length - 1 - k) with
  | some i =>
    if 0 < i ∧ i < name.data.length - 1 then ⟨name.data.drop i⟩ else ""
  | none => ""

/-- The default extension set `exts` of `find_input_files`. -/
def asset_exts : List String :=
  [".assets", ".unity3d", ".assetbundle", ".bundle", ".resS",
   ".sharedassets", ".resources", ".resource", ".dat", ".ress"]

/-- The fixed name-substring keys of `find_input_files`. -/
def name_keys : List String :=
  ["sharedassets", "resources", ".unity3d", "assetbundle",
   "globalgamemanagers", "level"]

/-- The per-file filter of the recursive scan: lowered suffix in the
extension set, or any key a substring of the lowered name. -/
def keepFile (name : String) : Bool :=
  asset_exts.contains (asciiLower (pySuffix name)) ||
    name_keys.any (fun k => containsSub (asciiLower name).data k.data)

/-- `find_input_files(root)`: filter the recursive enumeration; when the
filtered set is empty, fall back to the immediate top-level listing. -/
def find_input_files (rglobFiles topLevelFiles : List String) : List String :=
  let files := rglobFiles.filter keepFile
  if files.isEmpty then topLevelFiles else files

/-! ## VersionSniffer (`detect_unity_version`, lines 45-84)

The three byte-regex patterns are embedded as explicit matchers over the
header characters; `re.search` is the leftmost-position scan. -/

/-- `[a-z0-9]` (the optional version suffix class). -/
def isLowerAlnum (c : Char) : Bool := c.isDigit || ('a' ≤ c && c ≤ 'z')

/-- Match `\d+` at the head: the maximal nonempty digit run and the rest. -/
def matchNumAt (l : List Char) : Option (List Char × List Char) :=
  let ds := l.takeWhile Char.isDigit
  if ds.isEmpty then none else some (ds, l.drop ds.length)

/-- Match `\d+\.\d+` at the head, returning the matched characters. -/
def matchVer2At (l : List Char) : Option (List Char) :=
  match matchNumAt l with
  | none => none
  | some (d1, r1) =>
    match r1 with
    | '.' :: r2 =>
      match matchNumAt r2 with
      | none => none
      | some (d2, _) => some (d1 ++ '.' :: d2)
    | _ => none

/-- Match `\d+\.\d+\.\d+` at the head, returning the matched characters
and the remainder of the input. -/
def matchVer3At (l : List Char) : Option (List Char × List Char) :=
  match matchNumAt l with
  | none => none
  | some (d1, r1) =>
    match r1 with
    | '.' :: r2 =>
      match matchNumAt r2 with
      | none => none
      | some (d2, r3) =>
        match r3 with
        | '.' :: r4 =>
          match matchNumAt r4 with
          | none => none
          | some (d3, r5) => some (d1 ++ '.' :: d2 ++ '.' :: d3, r5)
        | _ => none
    | _ => none

/-- Match `(\d+\.\d+\.\d+[a-z0-9]*)` at the head: the three-part version
followed by the maximal `[a-z0-9]*` tail. -/
def matchBareAt (l : List Char) : Option (List Char) :=
  match matchVer3At l with
  | none => none
  | some (v, rest) => some (v ++ rest.takeWhile isLowerAlnum)

/-- Match `Unity (\d+\.\d+\.\d+)` at the head; the group excludes the
literal prefix and carries no suffix class. -/
def matchUnityAt (l : List Char) : Option (List Char) :=
  if List.isPrefixOf "Unity ".data l then
    (matchVer3At (l.drop 6)).map (fun p => p.1)
  else none

/-- The lazy gap of `UnityFS.*?(\d+\.\d+)` after the literal tag: try the
group at each successive offset, stopping at a newline (which `.` does not
match) or at the end of the header. -/
def fsGap : List Char → Option (List Char)
  | [] => none
  | c :: t =>
    match matchVer2At (c :: t) with
    | some g => some g
    | none => if c = '\n' then none else fsGap t

/-- Match `UnityFS.*?(\d+\.\d+)` at the head. -/
def matchUnityFSAt (l : List Char) : Option (List Char) :=
  if List.isPrefixOf "UnityFS".data l then fsGap (l.drop 7) else none

/-- `re.search`: scan match positions left to right, first success wins. -/
def reSearch (m : List Char → Option (List Char)) :
    List Char → Option (List Char)
  | [] => m []
  | c :: t =>
    match m (c :: t) with
    | some g => some g
    | none => reSearch m t

/-- `re.search(rb'(\d+\.\d+\.\d+[a-z0-9]*)', header)`. -/
def searchBare (h : List Char) : Option (List Char) := reSearch matchBareAt h

/-- `re.search(rb'Unity (\d+\.\d+\.\d+)', header)`. -/
def searchUnity (h : List Char) : Option (List Char) := reSearch matchUnityAt h

/-- `re.search(rb'UnityFS.*?(\d+\.\d+)', header)`. -/
def searchUnityFS (h : List Char) : Option (List Char) :=
  reSearch matchUnityFSAt h

/-- The `version_patterns` list, in the order it appears in the source. -/
def version_patterns : List (List Char → Option (List Char)) :=
  [searchBare, searchUnity, searchUnityFS]

/-- The header-matching loop of `detect_unity_version`: the first pattern
in `version_patterns` whose search succeeds supplies the version string
(the captured group is ASCII, so the UTF-8 decode is the identity). -/
def detectFromHeader (header : List Char) : Option String :=
  match version_patterns.foldl
      (fun acc p => match acc with
        | some g => some g
        | none => p header) none with
  | some g => some ⟨g⟩
  | none => none

/-- Modelled from the spec: the claimed priority order for the header
patterns — `Unity <major>.<minor>.<patch>` first, the bare version second,
`UnityFS` third — for comparison against `detectFromHeader`. -/
def claimOrderDetect (header : List Char) : Option String :=
  match searchUnity header with
  | some g => some ⟨g⟩
  | none =>
    match searchBare header with
    | some g => some ⟨g⟩
    | none =>
      match searchUnityFS header with
      | some g => some ⟨g⟩
      | none => none

/-- Outcome of `UnityPy.load` in `detect_unity_version`: the call raises,
or yields an environment whose `version` attribute is present or absent. -/
inductive ParserOutcome
  | raises (msg : String)
  | loaded (version : Option String)
deriving DecidableEq

/-- What `detect_unity_version` consumes of a file: its name, the parser
outcome, and the outcome of reading the first 1024 bytes of the header. -/
structure FileModel where
  fname : String
  parser : ParserOutcome
  headerRead : Except String (List Char)

/-- The `VersionInfo` record built by `detect_unity_version`. -/
structure VersionInfo where
  version : String
  detected_from : Option String
  compatible : Bool
  warning : Option String
deriving DecidableEq

/-- `detect_unity_version(path)`: parser version field first; otherwise the
header pattern loop; any raise is caught and recorded in `warning`, the
defaults (`"Unknown"`, `None`, `True`) surviving untouched. -/
def detect_unity_version (f : FileModel) : VersionInfo :=
  match f.parser with
  | .raises e => ⟨"Unknown", none, true, some e⟩
  | .loaded (some v) => ⟨v, some f.fname, true, none⟩
  | .loaded none =>
    match f.headerRead with
    | .error e => ⟨"Unknown", none, true, some e⟩
    | .ok header =>
      match detectFromHeader header with
      | some v => ⟨v, some f.fname, true, none⟩
      | none => ⟨"Unknown", none, true, none⟩

/-! ## ExtractionEngine (`extract_from_file` and helpers, lines 134-318)

Decoded objects are modelled as the attribute bag the source probes with
`getattr`; the external parser's `load` is an `Option` (a raised load error
yields `none`), and a per-object `read()` is an `Except`. Side effects are
tracked explicitly: directories passed to `ensure_dir`, files written, and
the per-kind counters. -/

/-- A value held by a text-like attribute (`m_Script`, `script`, `text`):
Python `str` or `bytes`. -/
inductive TextData
  | str (s : String)
  | bytes (b : List Nat)
deriving DecidableEq

/-- Python truthiness of a text-like value: empty `str`/`bytes` are falsy. -/
def tdTruthy : TextData → Bool
  | .str s => !(s == "")
  | .bytes b => !b.isEmpty

/-- Python `a or b` over optional text-like values (`None` and empty
values fall through; the second operand is returned as-is). -/
def pyOrTD (a b : Option TextData) : Option TextData :=
  match a with
  | some t => if tdTruthy t then some t else b
  | none => b

/-- Python `a or b` where the right operand is a definite string. -/
def pyOrStr (a : Option String) (b : String) : String :=
  match a with
  | some s => if s = "" then b else s
  | none => b

/-- The attribute bag of a decoded object: exactly the attributes the
per-kind branches probe, `none`/defaults standing for absent attributes. -/
structure ObjData where
  nameAttr : Option String := none
  m_Name : Option String := none
  image : Bool := false
  samples : Option (List (String × List Nat)) := none
  exportResult : Except String String := Except.error "export unavailable"
  m_Script : Option TextData := none
  script : Option TextData := none
  text : Option TextData := none
  m_FontData : Option (List Nat) := none
  typetree : Except String Bool := Except.error "typetree unavailable"

/-- One object yielded by the container: its type name, persistent
`path_id`, and the outcome of `obj.read()`. -/
structure UnityObj where
  typeName : String
  path_id : Int
  readResult : Except String ObjData

/-- The per-run enable flags (`options` dict). -/
structure ExtractionOptions where
  textures : Bool
  sprites : Bool
  audio : Bool
  meshes : Bool
  texts : Bool
  fonts : Bool
  scripts : Bool
  materials : Bool
deriving DecidableEq

/-- The default options dict of `extract_from_file`: every kind enabled. -/
def defaultOptions : ExtractionOptions :=
  ⟨true, true, true, true, true, true, true, true⟩

/-- The `stats` mapping: one counter per kind plus `other`. -/
structure KindStats where
  textures : Nat
  sprites : Nat
  audio : Nat
  meshes : Nat
  texts : Nat
  fonts : Nat
  scripts : Nat
  materials : Nat
  other : Nat
deriving DecidableEq

/-- `{k: 0 for k in [...]}`. -/
def KindStats.zero : KindStats := ⟨0, 0, 0, 0, 0, 0, 0, 0, 0⟩

/-- Element-wise sum of two stats mappings (`total[k] += v`). -/
def KindStats.add (a b : KindStats) : KindStats :=
  ⟨a.textures + b.textures, a.sprites + b.sprites, a.audio + b.audio,
   a.meshes + b.meshes, a.texts + b.texts, a.fonts + b.fonts,
   a.scripts + b.scripts, a.materials + b.materials, a.other + b.other⟩

/-- The side effects of handling one object: directories passed to
`ensure_dir`, files written as (kind directory, file name), and the
counter increments. -/
structure Delta where
  dirs : List String
  writes : List (String × String)
  stats : KindStats

/-- The empty effect (an object whose handling was cut short). -/
def Delta.nil : Delta := ⟨[], [], KindStats.zero⟩

/-- The observable state of one extraction pass. -/
structure PassState where
  stats : KindStats
  created : List String
  written : List (String × String)

/-- Pass state before the object loop: zeroed counters, nothing created
or written. -/
def PassState.init : PassState := ⟨KindStats.zero, [], []⟩

/-- `f"{tex_name}_{obj.path_id}.png"`: the texture output file name. -/
def texFileName (name : String) (pid : Int) : String :=
  name ++ "_" ++ intDecStr pid ++ ".png"

/-- `f"{name}_{path_id}.png"`: the sprite output file name. -/
def spriteFileName (name : String) (pid : Int) : String :=
  name ++ "_" ++ intDecStr pid ++ ".png"

/-- `f"{name}_{path_id}.json"` and `f"{name}_{path_id}{ext}"`: the script
output file name, the extension being `.json` for the type-tree dump and
`.cs`/`.txt` for raw source. -/
def scriptFileName (name : String) (pid : Int) (ext : String) : String :=
  name ++ "_" ++ intDecStr pid ++ ext

/-- The extensions `extract_mono_script` can produce. -/
def scriptExts : List String := [".json", ".cs", ".txt"]

/-- `f"{name}_{obj.path_id}.json"`: the material output file name. -/
def materialFileName (name : String) (pid : Int) : String :=
  name ++ "_" ++ intDecStr pid ++ ".json"

/-- The audio sample loop: one `<sanitized-subname>.wav` write per entry
of the `samples` mapping, empty sub-names falling back to
`audio_<path_id>`. -/
def audioWrites (pid : Int) (l : List (String × List Nat)) :
    List (String × String) :=
  l.map (fun p =>
    ("audio",
      sanitize_name (some (if p.1 = "" then "audio_" ++ intDecStr pid
        else p.1)) ++ ".wav"))

/-- `extract_sprite`: its own try/except around `read()`; a sprite with a
truthy image yields one `<name>_<path_id>.png` write and success, anything
else (including a raised read) yields no write and failure. -/
def spriteResult (pid : Int) (rr : Except String ObjData) :
    List (String × String) × Bool :=
  match rr with
  | .error _ => ([], false)
  | .ok d =>
    let name := sanitize_name (some (d.m_Name.getD ("sprite_" ++ intDecStr pid)))
    if d.image then ([("sprites", spriteFileName name pid)], true)
    else ([], false)

/-- Python `repr` of a `bytes` value: quote selection, then per-byte
escaping (`str(script_data)` when the script source is bytes). -/
def pyBytesRepr (b : List Nat) : String :=
  let q : Char :=
    if b.contains 39 && !(b.contains 34) then Char.ofNat 34 else Char.ofNat 39
  let esc : Nat → List Char := fun n =>
    if n = 92 then ['\\', '\\']
    else if n = q.toNat then ['\\', q]
    else if n = 9 then ['\\', 't']
    else if n = 10 then ['\\', 'n']
    else if n = 13 then ['\\', 'r']
    else if 32 ≤ n ∧ n ≤ 126 then [Char.ofNat n]
    else ['\\', 'x', Nat.digitChar (n / 16 % 16), Nat.digitChar (n % 16)]
  ⟨'b' :: q :: (b.map esc).flatten ++ [q]⟩

/-- `str(script_data)`: identity on `str`, `repr` on `bytes`. -/
def pyStrOfData : TextData → String
  | .str s => s
  | .bytes b => pyBytesRepr b

/-- The C#-source heuristic: any of `using `/`namespace `/`class ` in the
first 100 characters of `str(script_data)` selects `.cs` over `.txt`. -/
def csHeuristic (sd : TextData) : Bool :=
  ["using ", "namespace ", "class "].any
    (fun x => containsSub ((pyStrOfData sd).data.take 100) x.data)

/-- `extract_mono_script`: raw script attribute chain (`m_Script` by
presence, then `script`); a falsy chain falls back to the type-tree dump
(`<name>_<id>.json` on a truthy tree); a truthy chain writes
`<name>_<id>.cs`/`.txt` by the source heuristic. Raised reads fail. -/
def monoResult (pid : Int) (rr : Except String ObjData) :
    List (String × String) × Bool :=
  match rr with
  | .error _ => ([], false)
  | .ok d =>
    let name := sanitize_name (some (d.m_Name.getD ("script_" ++ intDecStr pid)))
    let scriptData : Option TextData :=
      match d.m_Script with
      | some v => some v
      | none => d.script
    let truthy : Bool :=
      match scriptData with
      | some t => tdTruthy t
      | none => false
    if !truthy then
      match d.typetree with
      | .ok true => ([("scripts", scriptFileName name pid ".json")], true)
      | _ => ([], false)
    else
      match scriptData with
      | some sd =>
        let ext := if csHeuristic sd then ".cs" else ".txt"
        ([("scripts", scriptFileName name pid ext)], true)
      | none => ([], true)

/-- The `Texture2D` branch: a truthy image yields one
`textures/<name>_<id>.png` write; otherwise (or on a raised read)
nothing happens — the directory is ensured only next to the write. -/
def textureEffect (pid : Int) (rr : Except String ObjData) : Delta :=
  match rr with
  | .error _ => Delta.nil
  | .ok d =>
    if d.image then
      ⟨["textures"],
        [("textures", texFileName (sanitize_name (some (pyOrStr d.nameAttr
          (pyOrStr d.m_Name ("texture_" ++ intDecStr pid))))) pid)],
        { KindStats.zero with textures := 1 }⟩
    else Delta.nil

/-- The `Sprite` branch: `ensure_dir` runs before `extract_sprite`, so the
directory appears whether or not the sprite produced a write. -/
def spriteEffect (pid : Int) (rr : Except String ObjData) : Delta :=
  let r := spriteResult pid rr
  ⟨["sprites"], r.1,
    if r.2 then { KindStats.zero with sprites := 1 } else KindStats.zero⟩

/-- The `AudioClip` branch: `ensure_dir` runs right after a successful
read, before the samples truthiness test; one write and one count per
sample entry. -/
def audioEffect (pid : Int) (rr : Except String ObjData) : Delta :=
  match rr with
  | .error _ => Delta.nil
  | .ok d =>
    match d.samples with
    | some l =>
      if l.isEmpty then ⟨["audio"], [], KindStats.zero⟩
      else ⟨["audio"], audioWrites pid l,
        { KindStats.zero with audio := l.length }⟩
    | none => ⟨["audio"], [], KindStats.zero⟩

/-- The `Mesh` branch: the directory is ensured only after `export()`
succeeded, next to the single `meshes/<name>.obj` write. -/
def meshEffect (pid : Int) (rr : Except String ObjData) : Delta :=
  match rr with
  | .error _ => Delta.nil
  | .ok d =>
    match d.exportResult with
    | .error _ => Delta.nil
    | .ok _ =>
      ⟨["meshes"],
        [("meshes",
          sanitize_name (some (d.m_Name.getD ("mesh_" ++ intDecStr pid)))
            ++ ".obj")],
        { KindStats.zero with meshes := 1 }⟩

/-- The `TextAsset` branch: directory ensured after the read; the write
happens only when the `m_Script or script or text` chain yields str/bytes
data, but the counter increments regardless. -/
def textAssetEffect (pid : Int) (rr : Except String ObjData) : Delta :=
  match rr with
  | .error _ => Delta.nil
  | .ok d =>
    let name := sanitize_name (some (d.m_Name.getD ("text_" ++ intDecStr pid)))
    let w : List (String × String) :=
      match pyOrTD (pyOrTD d.m_Script d.script) d.text with
      | some _ => [("texts", name ++ ".txt")]
      | none => []
    ⟨["texts"], w, { KindStats.zero with texts := 1 }⟩

/-- The `Font` branch: directory ensured after the read; a truthy
`m_FontData` blob is written with `.otf` when its first four bytes are
`OTTO`, else `.ttf`. -/
def fontEffect (pid : Int) (rr : Except String ObjData) : Delta :=
  match rr with
  | .error _ => Delta.nil
  | .ok d =>
    let name := sanitize_name (some (d.m_Name.getD ("font_" ++ intDecStr pid)))
    match d.m_FontData with
    | some b =>
      if b.isEmpty then ⟨["fonts"], [], KindStats.zero⟩
      else
        let ext := if b.take 4 = [79, 84, 84, 79] then ".otf" else ".ttf"
        ⟨["fonts"], [("fonts", name ++ ext)],
          { KindStats.zero with fonts := 1 }⟩
    | none => ⟨["fonts"], [], KindStats.zero⟩

/-- The `MonoBehaviour`/`MonoScript` branch: `ensure_dir` runs before
`extract_mono_script`. -/
def scriptEffect (pid : Int) (rr : Except String ObjData) : Delta :=
  let r := monoResult pid rr
  ⟨["scripts"], r.1,
    if r.2 then { KindStats.zero with scripts := 1 } else KindStats.zero⟩

/-- The `Material` branch: directory ensured inside the truthy-tree case,
next to the single `materials/<name>_<id>.json` write. -/
def materialEffect (pid : Int) (rr : Except String ObjData) : Delta :=
  match rr with
  | .error _ => Delta.nil
  | .ok d =>
    match d.typetree with
    | .ok true =>
      ⟨["materials"],
        [("materials",
          materialFileName
            (sanitize_name (some (d.m_Name.getD ("material_" ++ intDecStr pid))))
            pid)],
        { KindStats.zero with materials := 1 }⟩
    | _ => Delta.nil

/-- The effect of one iteration of the object loop of `extract_from_file`:
the `elif` dispatch chain on the type name and option flags, every raised
`read()` caught by the per-object `except`; unmatched or disabled types
count as `other`. -/
def objEffect (opts : ExtractionOptions) (obj : UnityObj) : Delta :=
  if obj.typeName == "Texture2D" && opts.textures then
    textureEffect obj.path_id obj.readResult
  else if obj.typeName == "Sprite" && opts.sprites then
    spriteEffect obj.path_id obj.readResult
  else if obj.typeName == "AudioClip" && opts.audio then
    audioEffect obj.path_id obj.readResult
  else if obj.typeName == "Mesh" && opts.meshes then
    meshEffect obj.path_id obj.readResult
  else if obj.typeName == "TextAsset" && opts.texts then
    textAssetEffect obj.path_id obj.readResult
  else if obj.typeName == "Font" && opts.fonts then
    fontEffect obj.path_id obj.readResult
  else if (obj.typeName == "MonoBehaviour" || obj.typeName == "MonoScript")
      && opts.scripts then
    scriptEffect obj.path_id obj.readResult
  else if obj.typeName == "Material" && opts.materials then
    materialEffect obj.path_id obj.readResult
  else
    ⟨[], [], { KindStats.zero with other := 1 }⟩

/-- Fold one object's effect into the pass state. -/
def applyEffect (st : PassState) (d : Delta) : PassState :=
  ⟨st.stats.add d.stats, st.created ++ d.dirs, st.written ++ d.writes⟩

/-- One iteration of the `for obj in env.objects` loop. -/
def processObject (opts : ExtractionOptions) (st : PassState)
    (obj : UnityObj) : PassState :=
  applyEffect st (objEffect opts obj)

/-- `extract_from_file`: `none` models a raised `UnityPy.load` (the
function logs and returns `null`); otherwise the object loop runs from the
zeroed state and the final stats are returned. -/
def extract_from_file (loaded : Option (List UnityObj))
    (opts : ExtractionOptions) : Option PassState :=
  loaded.map (fun objs => objs.foldl (processObject opts) PassState.init)

/-! ## BatchRunner (`start_extraction` totals loop, lines 645-662) -/

/-- The stats one file adds to the run total: zero when its extraction
returned `null`. -/
def fileContribution (opts : ExtractionOptions)
    (f : Option (List UnityObj)) : KindStats :=
  match extract_from_file f opts with
  | none => KindStats.zero
  | some st => st.stats

/-- The batch totals fold: `total_stats[k] += v` for each file whose
extraction returned stats, failed files skipped. -/
def runBatch (files : List (Option (List UnityObj)))
    (opts : ExtractionOptions) : KindStats :=
  files.foldl (fun tot f =>
    match extract_from_file f opts with
    | none => tot
    | some st => tot.add st.stats) KindStats.zero

/-! ## Helper lemmas -/

theorem digitChar_toNat : ∀ n, n < 10 → (Nat.digitChar n).toNat = 48 + n := by
  decide

theorem decVal_snoc (xs : List Char) (c : Char) :
    decVal (xs ++ [c]) = decVal xs * 10 + (c.toNat - 48) := by
  simp [decVal, List.foldl_append]

theorem decVal_natDec (n : Nat) : decVal (natDec n) = n := by
  induction n using Nat.strong_induction_on with
  | _ n ih =>
    by_cases h : n < 10
    · rw [natDec]
      simp only [h, dite_true, decVal, List.foldl]
      have := digitChar_toNat n h
      omega
    · rw [natDec]
      simp only [h, dite_false]
      rw [decVal_snoc, ih (n / 10) (Nat.div_lt_self (by omega) (by omega))]
      have := digitChar_toNat (n % 10) (Nat.mod_lt _ (by omega))
      omega

theorem natDec_injective : Function.Injective natDec := by
  intro a b h
  have := decVal_natDec a
  rw [h, decVal_natDec] at this
  omega

theorem natDec_digits (n : Nat) : ∀ c ∈ natDec n, 48 ≤ c.toNat := by
  induction n using Nat.strong_induction_on with
  | _ n ih =>
    by_cases h : n < 10
    · rw [natDec]
      simp only [h, dite_true, List.mem_singleton]
      intro c hc
      subst hc
      have := digitChar_toNat n h
      omega
    · rw [natDec]
      simp only [h, dite_false, List.mem_append, List.mem_singleton]
      intro c hc
      rcases hc with hc | hc
      · exact ih (n / 10) (Nat.div_lt_self (by omega) (by omega)) c hc
      · subst hc
        have := digitChar_toNat (n % 10) (Nat.mod_lt _ (by omega))
        omega

theorem intDec_injective : Function.Injective intDec := by
  intro i j h
  unfold intDec at h
  by_cases hi : i < 0 <;> by_cases hj : j < 0 <;> simp [hi, hj] at h
  · have := natDec_injective h
    omega
  · exfalso
    have hm : '-' ∈ natDec j.natAbs := by
      rw [← h]; exact List.mem_cons_self _ _
    exact absurd (natDec_digits j.natAbs '-' hm) (by decide)
  · exfalso
    have hm : '-' ∈ natDec i.natAbs := by
      rw [h]; exact List.mem_cons_self _ _
    exact absurd (natDec_digits i.natAbs '-' hm) (by decide)
  · have := natDec_injective h
    omega

theorem texFileName_inj (name : String) {i j : Int}
    (h : texFileName name i = texFileName name j) : i = j := by
  apply intDec_injective
  have hd := congrArg String.data h
  simp only [texFileName, String.data_append, intDecStr] at hd
  have h1 := List.append_cancel_right hd
  exact List.append_cancel_left h1

theorem intDec_no_dot (i : Int) : '.' ∉ intDec i := by
  intro hm
  unfold intDec at hm
  split at hm
  · rw [List.mem_cons] at hm
    rcases hm with h | h
    · exact absurd h (by decide)
    · exact absurd (natDec_digits _ _ h) (by decide)
  · exact absurd (natDec_digits _ _ hm) (by decide)

theorem no_dot_append_inj : ∀ (a b x y : List Char), '.' ∉ a → '.' ∉ b →
    x.head? = some '.' → y.head? = some '.' → a ++ x = b ++ y → a = b := by
  intro a
  induction a with
  | nil =>
    intro b x y _ hb hx _ h
    cases b with
    | nil => rfl
    | cons c bt =>
      exfalso
      rw [List.nil_append, List.cons_append] at h
      rw [h] at hx
      simp only [List.head?_cons, Option.some.injEq] at hx
      exact hb (hx ▸ List.mem_cons_self _ _)
  | cons c a' ih =>
    intro b x y ha hb hx hy h
    cases b with
    | nil =>
      exfalso
      rw [List.cons_append, List.nil_append] at h
      rw [← h] at hy
      simp only [List.head?_cons, Option.some.injEq] at hy
      exact ha (hy ▸ List.mem_cons_self _ _)
    | cons c' bt =>
      rw [List.cons_append, List.cons_append] at h
      injection h with h1 h2
      subst h1
      rw [ih bt x y (fun hm => ha (List.mem_cons_of_mem _ hm))
        (fun hm => hb (List.mem_cons_of_mem _ hm)) hx hy h2]

theorem idExtName_inj (n : String) (i j : Int) (e1 e2 : String)
    (h1 : e1.data.head? = some '.') (h2 : e2.data.head? = some '.')
    (h : n ++ "_" ++ intDecStr i ++ e1 = n ++ "_" ++ intDecStr j ++ e2) :
    i = j := by
  apply intDec_injective
  have hd := congrArg String.data h
  simp only [String.data_append, intDecStr, List.append_assoc] at hd
  have h3 := List.append_cancel_left hd
  have h4 := List.append_cancel_left h3
  exact no_dot_append_inj _ _ _ _ (intDec_no_dot i) (intDec_no_dot j) h1 h2 h4

theorem KindStats.add_zero (a : KindStats) : a.add KindStats.zero = a := by
  cases a
  simp [KindStats.add, KindStats.zero]

theorem applyEffect_nil (st : PassState) : applyEffect st Delta.nil = st := by
  cases st
  simp [applyEffect, Delta.nil, KindStats.add_zero]

/-! ## Claim theorems -/

/-- C4: the compatibility classifier evaluates its rules in order —
no leading major.minor parses to the inconclusive result; `major < 3` or
`major = 3, minor < 4` to "too old"; `major > 2023` to "newer"; everything
else to "Fully supported" — and in particular classifies `"3.3.9"`,
`"2021.3.10f1"`, `"2025.1"` and `"not-a-version"` as the spec lists. -/
theorem check_version_compatibility_rules :
    check_version_compatibility "3.3.9"
        = (false, "Unity version too old (< 3.4)") ∧
    check_version_compatibility "2021.3.10f1" = (true, "Fully supported") ∧
    check_version_compatibility "2025.1"
        = (true, "Newer version - may have limited support") ∧
    check_version_compatibility "not-a-version"
        = (true, "Version check inconclusive") ∧
    ∀ s, check_version_compatibility s =
      match parseMajorMinor s with
      | none => (true, "Version check inconclusive")
      | some (major, minor) =>
        if major < 3 ∨ (major = 3 ∧ minor < 4) then
          (false, "Unity version too old (< 3.4)")
        else if 2023 < major then
          (true, "Newer version - may have limited support")
        else (true, "Fully supported") := by
  refine ⟨by decide, by decide, by decide, by decide, ?_⟩
  intro s
  unfold check_version_compatibility
  cases hp : parseMajorMinor s with
  | none => rfl
  | some p =>
    obtain ⟨M, m⟩ := p
    by_cases h1 : M < 3 ∨ (M = 3 ∧ m < 4)
    · have hb : (decide (M < 3) || (M == 3 && decide (m < 4))) = true := by
        simp only [Bool.or_eq_true, Bool.and_eq_true, decide_eq_true_eq,
          beq_iff_eq]
        exact h1
      simp [hb, h1]
    · have hb : (decide (M < 3) || (M == 3 && decide (m < 4))) = false := by
        simp only [Bool.or_eq_false_iff, Bool.and_eq_false_iff,
          decide_eq_false_iff_not, beq_eq_false_iff_ne]
        omega
      by_cases h2 : 2023 < M
      · simp [hb, h1, h2]
      · simp [hb, h1, h2, Nat.not_lt.mp h2]

/-- C5: the name sanitizer is total and pure — `None` and the empty string
fall back to `"unnamed"`, and for every input the result is nonempty and
consists only of allow-listed characters. -/
theorem sanitize_name_safe :
    sanitize_name none = "unnamed" ∧ sanitize_name (some "") = "unnamed" ∧
    ∀ name, (sanitize_name name).data ≠ [] ∧
      (sanitize_name name).data.all (fun c => decide (c ∈ keep.data)) = true := by
  refine ⟨by decide, by decide, ?_⟩
  intro name
  have hu : ("unnamed" : String).data ≠ [] ∧
      ("unnamed" : String).data.all (fun c => decide (c ∈ keep.data)) = true :=
    ⟨by decide, by decide⟩
  cases name with
  | none =>
    constructor
    · decide
    · decide
  | some s =>
    by_cases hs : s = ""
    · subst hs
      constructor
      · decide
      · decide
    · constructor
      · simp only [sanitize_name, hs, if_false]
        intro hnil
        have : s.data = [] := by
          have := congrArg List.length hnil
          simpa using List.eq_nil_of_length_eq_zero (by simpa using this)
        exact hs (String.ext (by simpa using this))
      · simp only [sanitize_name, hs, if_false, List.all_eq_true]
        intro c hc
        rcases List.mem_map.mp hc with ⟨a, _, rfl⟩
        by_cases ha : a ∈ keep.data
        · simp [ha]
        · simp only [ha, if_false]
          decide

/-- C6: file discovery keeps exactly the recursively enumerated files whose
lowered extension is in the fixed set or whose lowered name contains one of
the fixed substrings, and falls back to the immediate listing when the
filtered set is empty; over `a.assets`, `b.txt`, `sharedassets0.resource`
it returns exactly `a.assets` and `sharedassets0.resource`. -/
theorem find_input_files_spec :
    find_input_files ["a.assets", "b.txt", "sharedassets0.resource"]
        ["a.assets", "b.txt", "sharedassets0.resource"]
      = ["a.assets", "sharedassets0.resource"] ∧
    find_input_files ["b.txt"] ["b.txt"] = ["b.txt"] ∧
    (∀ rg tl, find_input_files rg tl =
      if (rg.filter keepFile).isEmpty then tl else rg.filter keepFile) ∧
    ∀ name, keepFile name =
      (asset_exts.contains (asciiLower (pySuffix name)) ||
        name_keys.any (fun k => containsSub (asciiLower name).data k.data)) := by
  exact ⟨by decide, by decide, fun rg tl => rfl, fun name => rfl⟩

/-- C8: version detection never raises — when the parser raises, the header
read raises, or no header pattern matches, the result is the record
`{version := "Unknown", detected_from := none, compatible := true,
warning := captured error text or none}`. -/
theorem detect_unity_version_degrades :
    (∀ n hr e, detect_unity_version ⟨n, .raises e, hr⟩
      = ⟨"Unknown", none, true, some e⟩) ∧
    (∀ n e, detect_unity_version ⟨n, .loaded none, .error e⟩
      = ⟨"Unknown", none, true, some e⟩) ∧
    (∀ n h, detect_unity_version ⟨n, .loaded none, .ok h⟩ =
      match detectFromHeader h with
      | some v => ⟨v, some n, true, none⟩
      | none => ⟨"Unknown", none, true, none⟩) := by
  refine ⟨fun n hr e => rfl, fun n e => rfl, fun n h => ?_⟩
  cases hd : detectFromHeader h <;> simp [detect_unity_version, hd]

/-- C1 counterexample: on the header `"1.2.3 Unity 4.5.6"` both the bare
version pattern and the `Unity ...` pattern match, but the code returns the
bare pattern's `"1.2.3"` while the claimed priority order (the `Unity ...`
pattern first) would return `"4.5.6"`. -/
theorem detectFromHeader_priority_cex :
    detectFromHeader "1.2.3 Unity 4.5.6".data
        ≠ claimOrderDetect "1.2.3 Unity 4.5.6".data ∧
    detectFromHeader "1.2.3 Unity 4.5.6".data = some "1.2.3" ∧
    claimOrderDetect "1.2.3 Unity 4.5.6".data = some "4.5.6" := by
  have h1 : detectFromHeader "1.2.3 Unity 4.5.6".data = some "1.2.3" := by rfl
  have h2 : claimOrderDetect "1.2.3 Unity 4.5.6".data = some "4.5.6" := by rfl
  refine ⟨?_, h1, h2⟩
  rw [h1, h2]
  decide

/-- C1 (amended): header version detection tries the three patterns in the
order the source lists them — the bare `<major>.<minor>.<patch><suffix>`
pattern first, then `Unity <major>.<minor>.<patch>`, then
`UnityFS ... <major>.<minor>` — and the first pattern whose search
succeeds determines the result. -/
theorem detectFromHeader_priority :
    (∀ h, detectFromHeader h =
      match searchBare h with
      | some g => some (String.mk g)
      | none =>
        match searchUnity h with
        | some g => some (String.mk g)
        | none =>
          match searchUnityFS h with
          | some g => some (String.mk g)
          | none => none) ∧
    detectFromHeader "UnityFS\u000012.7".data = some "12.7" := by
  constructor
  · intro h
    cases hb : searchBare h <;> cases hu : searchUnity h <;>
      cases hf : searchUnityFS h <;>
      simp [detectFromHeader, version_patterns, hb, hu, hf]
  · rfl

/-- A Mesh object with display name `"a"` and a successful export, used to
exhibit an output-name collision between distinct ids. -/
def meshNamedA (pid : Int) : UnityObj :=
  ⟨"Mesh", pid,
    .ok { m_Name := some "a", exportResult := Except.ok "v 0 0 0" }⟩

/-- C2 counterexample: two distinct Mesh objects in one container, same
sanitized display name `"a"`, distinct ids 1 and 2, yet the pass writes
both to the single name `meshes/a.obj` — the output file names are not
distinct, because the mesh name carries no `_<id>` segment. -/
theorem same_kind_collision_cex :
    (extract_from_file (some [meshNamedA 1, meshNamedA 2])
        defaultOptions).map (fun st => st.written)
      = some [("meshes", "a.obj"), ("meshes", "a.obj")] ∧
    ¬ ([("meshes", "a.obj"), ("meshes", "a.obj")] :
        List (String × String)).Nodup := by
  exact ⟨by rfl, by decide⟩

/-- C2 (amended): the `_<id>` disambiguation holds for the kinds whose
output names embed the persistent id — textures, sprites, scripts and
materials — in particular for two Texture objects: with equal sanitized
display names but different ids, the output file names differ, whatever
extension each script write picked; audio, mesh, text and font outputs
omit the id and can collide. -/
theorem id_output_names_distinct (n : String) (i j : Int) (hij : i ≠ j) :
    texFileName n i ≠ texFileName n j ∧
    spriteFileName n i ≠ spriteFileName n j ∧
    (∀ e1 e2, e1 ∈ scriptExts → e2 ∈ scriptExts →
      scriptFileName n i e1 ≠ scriptFileName n j e2) ∧
    materialFileName n i ≠ materialFileName n j := by
  refine ⟨?_, ?_, ?_, ?_⟩
  · intro h
    exact hij (idExtName_inj n i j ".png" ".png" rfl rfl h)
  · intro h
    exact hij (idExtName_inj n i j ".png" ".png" rfl rfl h)
  · intro e1 e2 he1 he2 h
    unfold scriptFileName at h
    simp only [scriptExts, List.mem_cons, List.mem_singleton,
      List.not_mem_nil, or_false] at he1 he2
    rcases he1 with rfl | rfl | rfl <;> rcases he2 with rfl | rfl | rfl <;>
      exact hij (idExtName_inj n i j _ _ (by decide) (by decide) h)
  · intro h
    exact hij (idExtName_inj n i j ".json" ".json" rfl rfl h)

theorem id_output_names_distinct_witness :
    texFileName "a" 1 ≠ texFileName "a" 2 ∧
    spriteFileName "a" 1 ≠ spriteFileName "a" 2 ∧
    scriptFileName "a" 1 ".cs" ≠ scriptFileName "a" 2 ".json" ∧
    materialFileName "a" 1 ≠ materialFileName "a" 2 := by
  obtain ⟨h1, h2, h3, h4⟩ := id_output_names_distinct "a" 1 2 (by decide)
  exact ⟨h1, h2, h3 ".cs" ".json" (by decide) (by decide), h4⟩

/-- A Texture2D object whose `read()` raises, exercising the per-object
exception handler. -/
def readFailTexture (e : String) (pid : Int) : UnityObj :=
  ⟨"Texture2D", pid, .error e⟩

/-- C7: when opening the container fails the engine returns null, and an
exception raised while handling one object is caught — the pass over the
remaining objects proceeds exactly as if the failing object were absent. -/
theorem extract_isolates_failures (opts : ExtractionOptions) (e : String)
    (pid : Int) (xs ys : List UnityObj) (henabled : opts.textures = true) :
    extract_from_file none opts = none ∧
    extract_from_file (some (xs ++ readFailTexture e pid :: ys)) opts
      = extract_from_file (some (xs ++ ys)) opts := by
  refine ⟨rfl, ?_⟩
  have key : ∀ st : PassState,
      processObject opts st (readFailTexture e pid) = st := by
    intro st
    have hnil : objEffect opts (readFailTexture e pid) = Delta.nil := by
      simp [objEffect, textureEffect, readFailTexture, henabled]
    rw [processObject, hnil]
    exact applyEffect_nil st
  simp [extract_from_file, List.foldl_append, key]

theorem extract_isolates_failures_witness :
    extract_from_file none defaultOptions = none ∧
    extract_from_file
        (some ([] ++ readFailTexture "boom" 7 :: [])) defaultOptions
      = extract_from_file (some ([] ++ [])) defaultOptions :=
  extract_isolates_failures defaultOptions "boom" 7 [] [] rfl

/-- C9: the run totals equal the element-wise sum of the per-file stats,
a file whose extraction returned null contributing zero, and a failed file
does not stop the batch — removing it leaves the totals unchanged. -/
theorem runBatch_totals (files xs ys : List (Option (List UnityObj)))
    (opts : ExtractionOptions) :
    runBatch files opts
      = (files.map (fileContribution opts)).foldl KindStats.add
          KindStats.zero ∧
    runBatch (xs ++ none :: ys) opts = runBatch (xs ++ ys) opts := by
  have step : ∀ (fs : List (Option (List UnityObj))) (acc : KindStats),
      fs.foldl (fun tot f =>
        match extract_from_file f opts with
        | none => tot
        | some st => tot.add st.stats) acc
      = (fs.map (fileContribution opts)).foldl KindStats.add acc := by
    intro fs
    induction fs with
    | nil => intro acc; rfl
    | cons f fs ih =>
      intro acc
      simp only [List.foldl_cons, List.map_cons, ih]
      congr 1
      cases hf : extract_from_file f opts with
      | none => simp [fileContribution, hf, KindStats.add_zero]
      | some st => simp [fileContribution, hf]
  constructor
  · exact step files KindStats.zero
  · simp only [runBatch, List.foldl_append, List.foldl_cons]
    rfl

/-- C10: a TextAsset whose attribute chain (`m_Script or script or text`)
yields neither character text nor bytes is written nowhere, yet the texts
counter still increments by one. -/
theorem textasset_counts_unwritten (opts : ExtractionOptions)
    (st : PassState) (pid : Int) (d : ObjData)
    (henabled : opts.texts = true)
    (hdata : pyOrTD (pyOrTD d.m_Script d.script) d.text = none) :
    (processObject opts st ⟨"TextAsset", pid, .ok d⟩).written = st.written ∧
    (processObject opts st ⟨"TextAsset", pid, .ok d⟩).stats.texts
      = st.stats.texts + 1 := by
  simp [processObject, objEffect, textAssetEffect, applyEffect, henabled,
    hdata, KindStats.add]

theorem textasset_counts_unwritten_witness :
    (processObject defaultOptions PassState.init
        ⟨"TextAsset", 0, .ok {}⟩).written = PassState.init.written ∧
    (processObject defaultOptions PassState.init
        ⟨"TextAsset", 0, .ok {}⟩).stats.texts
      = PassState.init.stats.texts + 1 :=
  textasset_counts_unwritten defaultOptions PassState.init 0 {} rfl rfl

/-- An AudioClip that reads successfully but exposes no samples mapping. -/
def samplelessAudio : UnityObj := ⟨"AudioClip", 5, .ok {}⟩

/-- C3 counterexample: a pass over a single sample-less AudioClip creates
the audio/ subdirectory yet writes zero items of that kind — the kind
directory is created on dispatch, not when the first item is about to be
written. -/
theorem kind_dir_created_without_write_cex :
    (extract_from_file (some [samplelessAudio]) defaultOptions).map
        (fun st => (st.created, st.written, st.stats.audio))
      = some (["audio"], [], 0) := rfl

theorem textureEffect_lazy (pid : Int) (rr : Except String ObjData) :
    "textures" ∈ (textureEffect pid rr).dirs →
    ∃ e ∈ (textureEffect pid rr).writes, e.1 = "textures" := by
  unfold textureEffect
  repeat' split
  all_goals simp [Delta.nil]

theorem meshEffect_lazy (pid : Int) (rr : Except String ObjData) :
    "meshes" ∈ (meshEffect pid rr).dirs →
    ∃ e ∈ (meshEffect pid rr).writes, e.1 = "meshes" := by
  unfold meshEffect
  repeat' split
  all_goals simp [Delta.nil]

theorem materialEffect_lazy (pid : Int) (rr : Except String ObjData) :
    "materials" ∈ (materialEffect pid rr).dirs →
    ∃ e ∈ (materialEffect pid rr).writes, e.1 = "materials" := by
  unfold materialEffect
  repeat' split
  all_goals simp [Delta.nil]

theorem textureEffect_dirs_sub (pid : Int) (rr : Except String ObjData)
    (k : String) : k ∈ (textureEffect pid rr).dirs → k = "textures" := by
  unfold textureEffect
  repeat' split
  all_goals simp_all [Delta.nil]

theorem spriteEffect_dirs_sub (pid : Int) (rr : Except String ObjData)
    (k : String) : k ∈ (spriteEffect pid rr).dirs → k = "sprites" := by
  unfold spriteEffect
  simp

theorem audioEffect_dirs_sub (pid : Int) (rr : Except String ObjData)
    (k : String) : k ∈ (audioEffect pid rr).dirs → k = "audio" := by
  unfold audioEffect
  repeat' split
  all_goals simp_all [Delta.nil]

theorem meshEffect_dirs_sub (pid : Int) (rr : Except String ObjData)
    (k : String) : k ∈ (meshEffect pid rr).dirs → k = "meshes" := by
  unfold meshEffect
  repeat' split
  all_goals simp_all [Delta.nil]

theorem textAssetEffect_dirs_sub (pid : Int) (rr : Except String ObjData)
    (k : String) : k ∈ (textAssetEffect pid rr).dirs → k = "texts" := by
  unfold textAssetEffect
  repeat' split
  all_goals simp_all [Delta.nil]

theorem fontEffect_dirs_sub (pid : Int) (rr : Except String ObjData)
    (k : String) : k ∈ (fontEffect pid rr).dirs → k = "fonts" := by
  unfold fontEffect
  repeat' split
  all_goals simp_all [Delta.nil]

theorem scriptEffect_dirs_sub (pid : Int) (rr : Except String ObjData)
    (k : String) : k ∈ (scriptEffect pid rr).dirs → k = "scripts" := by
  unfold scriptEffect
  simp

theorem materialEffect_dirs_sub (pid : Int) (rr : Except String ObjData)
    (k : String) : k ∈ (materialEffect pid rr).dirs → k = "materials" := by
  unfold materialEffect
  repeat' split
  all_goals simp_all [Delta.nil]

set_option maxHeartbeats 1600000 in
/-- For the textures/meshes/materials kinds, an object adds the kind
directory to its effect only together with a write into it. -/
theorem objEffect_lazy (opts : ExtractionOptions) (obj : UnityObj)
    (k : String) (hk : k = "textures" ∨ k = "meshes" ∨ k = "materials") :
    k ∈ (objEffect opts obj).dirs →
    ∃ e ∈ (objEffect opts obj).writes, e.1 = k := by
  rcases hk with rfl | rfl | rfl <;>
  · unfold objEffect
    repeat' split
    all_goals intro hmem
    all_goals
      first
        | exact textureEffect_lazy _ _ hmem
        | exact meshEffect_lazy _ _ hmem
        | exact materialEffect_lazy _ _ hmem
        | exact absurd (textureEffect_dirs_sub _ _ _ hmem) (by decide)
        | exact absurd (spriteEffect_dirs_sub _ _ _ hmem) (by decide)
        | exact absurd (audioEffect_dirs_sub _ _ _ hmem) (by decide)
        | exact absurd (meshEffect_dirs_sub _ _ _ hmem) (by decide)
        | exact absurd (textAssetEffect_dirs_sub _ _ _ hmem) (by decide)
        | exact absurd (fontEffect_dirs_sub _ _ _ hmem) (by decide)
        | exact absurd (scriptEffect_dirs_sub _ _ _ hmem) (by decide)
        | exact absurd (materialEffect_dirs_sub _ _ _ hmem) (by decide)
        | exact absurd hmem (List.not_mem_nil _)

/-- C3 (amended): the textures/, meshes/ and materials/ subdirectories are
created only when an item of that kind is about to be written — if such a
directory was created during a pass, the pass wrote a file into it;
the sprites/, audio/, texts/, fonts/ and scripts/ subdirectories are
instead created as soon as a matching enabled object is dispatched, even
when nothing of that kind ends up written. -/
theorem lazy_dir_creation (opts : ExtractionOptions) (objs : List UnityObj)
    (k : String) (hk : k = "textures" ∨ k = "meshes" ∨ k = "materials")
    (hmem : k ∈ (objs.foldl (processObject opts) PassState.init).created) :
    ∃ e ∈ (objs.foldl (processObject opts) PassState.init).written,
      e.1 = k := by
  have aux : ∀ (l : List UnityObj) (st : PassState),
      (k ∈ st.created → ∃ e ∈ st.written, e.1 = k) →
      k ∈ (l.foldl (processObject opts) st).created →
      ∃ e ∈ (l.foldl (processObject opts) st).written, e.1 = k := by
    intro l
    induction l with
    | nil => intro st h hm; exact h hm
    | cons o t ih =>
      intro st h hm
      refine ih (processObject opts st o) ?_ hm
      intro hc
      simp only [processObject, applyEffect] at hc ⊢
      rcases List.mem_append.mp hc with hc | hc
      · rcases h hc with ⟨e, he, hek⟩
        exact ⟨e, List.mem_append.mpr (Or.inl he), hek⟩
      · rcases objEffect_lazy opts o k hk hc with ⟨e, he, hek⟩
        exact ⟨e, List.mem_append.mpr (Or.inr he), hek⟩
  exact aux objs PassState.init
    (fun hc => absurd hc (List.not_mem_nil k)) hmem

/-- A Texture2D with an image, witnessing the lazy-creation theorem. -/
def texWithImage : UnityObj :=
  ⟨"Texture2D", 3, .ok { m_Name := some "t", image := true }⟩

theorem lazy_dir_creation_witness :
    ∃ e ∈ (([texWithImage].foldl (processObject defaultOptions)
        PassState.init)).written, e.1 = "textures" :=
  lazy_dir_creation defaultOptions [texWithImage] "textures"
    (Or.inl rfl) (by decide)

end UnityRipper
